import Mathlib

/-!
Verification of the classification-decision-and-batched-persistence pipeline.

The development shallowly embeds the Python sources:
* `core/classifier.py`  — `classify_headline` (category resolution),
* `core/database.py`    — `DatabasePool`, `Database` (pooling, batching),
* `core/scraper_engine.py` — `ScraperEngine` (extraction, per-source loop),
* `scraper.py`          — the superseded flat variant (same resolver logic).

Scores and confidences are modelled as rationals (`ℚ`); strings as Lean
`String`; timestamps as `Nat`.  Stateful Python objects become explicit
state-passing functions; a raised exception becomes an `Except` error or an
explicit Boolean flag in the returned tuple.
-/

namespace Pipeline

/-! ## Classifier (core/classifier.py, scraper.py `classify_headline`) -/

/-- One element of the classifier collaborator's output list: Python's
`{"label": ..., "score": ...}` dict. Label and score are paired per entry,
mirroring `result = model(text, top_k=3)`. -/
structure Entry where
  label : String
  score : ℚ
  deriving Repr, DecidableEq

/-- `tragedy_keywords` from classifier.py / scraper.py (same six words). -/
def tragedy_keywords : List String :=
  ["died", "killed", "death", "murder", "injured", "attack"]

/-- `label_mapping` from classifier.py (identical to `mapping` in scraper.py). -/
def label_mapping : List (String × String) :=
  [("news_&_social_concern", "World News"),
   ("sports", "Sports"),
   ("music", "Entertainment"),
   ("arts_&_culture", "Entertainment"),
   ("celebrity_&_pop_culture", "Entertainment"),
   ("politics", "Politics"),
   ("science_&_technology", "Technology"),
   ("business_&_entrepreneurs", "Business"),
   ("health", "Health"),
   ("family", "General News"),
   ("education", "General News"),
   ("diaries_&_daily_life", "General News"),
   ("film_tv_&_video", "Entertainment"),
   ("environmental_issues", "World News"),
   ("other", "General News")]

/-- Python `dict.get(key, default)` over an association list. -/
def dictGet (m : List (String × String)) (k dflt : String) : String :=
  match m.find? (fun p => p.1 == k) with
  | some p => p.2
  | none => dflt

/-- One comparison step of Python `max(result, key=lambda x: x["score"])`:
the current best is replaced only on a strictly greater score. -/
def pickBest (b x : Entry) : Entry :=
  if b.score < x.score then x else b

/-- Python `max(result, key=lambda x: x["score"])`: scans left to right and
replaces the current best only on a strictly greater score, so the first
maximal element wins; raises (here: `none`) on an empty sequence. -/
def pyMax : List Entry → Option Entry
  | [] => none
  | e :: es => some (es.foldl pickBest e)

/-- Python `s.lower()` (modelled character-wise). -/
def lowerStr (s : String) : String := String.mk (s.toList.map Char.toLower)

/-- Python `needle in hay` on strings: substring containment, as contiguous
sublist containment on the character lists. -/
def strContains (hay needle : String) : Bool :=
  decide (needle.toList <:+: hay.toList)

/-- Python `ValueError` raised by `max` on an empty sequence; the spec's
`InvalidInputError` taxonomy element. -/
inductive ClassifyError where
  | invalidInput
  deriving Repr, DecidableEq

/-- `classify_headline` from classifier.py after the model call, with the
label map as an explicit argument (classifier.py closes over the module-level
`label_mapping`; scraper.py over the local `mapping` with identical entries).
Returns `(category, label, score)`. -/
def classify_with (mapping : List (String × String)) (text : String)
    (result : List Entry) : Except ClassifyError (String × String × ℚ) :=
  match pyMax result with
  | none => .error .invalidInput
  | some best =>
    let label := best.label
    let score := best.score
    let category := dictGet mapping label "General News"
    let category :=
      if score < 1/2 &&
          tragedy_keywords.any (fun w => strContains (lowerStr text) w) then
        "World News"
      else category
    .ok (category, label, score)

/-- `classify_headline` with the module-level `label_mapping`, as in the source. -/
def classify_headline (text : String) (result : List Entry) :
    Except ClassifyError (String × String × ℚ) :=
  classify_with label_mapping text result

/-! ## Connection pool (core/database.py, `DatabasePool`)

Connections are interchangeable handles, so the pool state is the count of
connections sitting in the `queue.Queue` (`available`) and the count currently
borrowed (`borrowed`).  `queue.Queue.get()` blocks on an empty queue and
`queue.Queue.put()` blocks on a full one (`maxsize=pool_size`); blocking is
modelled as an explicit outcome that leaves the state unchanged. -/

structure DatabasePool where
  pool_size : Nat
  available : Nat
  borrowed : Nat
  deriving Repr, DecidableEq

/-- `DatabasePool.__init__`: eagerly creates `pool_size` connections and puts
them all in the queue. -/
def DatabasePool.create (pool_size : Nat) : DatabasePool :=
  { pool_size := pool_size, available := pool_size, borrowed := 0 }

/-- Possible outcomes of `get_connection`.  The source can hand out a
connection or block on the empty queue; `poolClosedError` is included so the
specified behavior is statable, but no code path produces it (the source
defines no such exception). -/
inductive AcquireOutcome where
  | got
  | blocks
  | poolClosedError
  deriving Repr, DecidableEq

/-- `DatabasePool.get_connection`: `self.connections.get()` — hands out a
queued connection, or blocks indefinitely when the queue is empty. -/
def get_connection (p : DatabasePool) : AcquireOutcome × DatabasePool :=
  if 0 < p.available then
    (.got, { p with available := p.available - 1, borrowed := p.borrowed + 1 })
  else
    (.blocks, p)

/-- `DatabasePool.return_connection`: `self.connections.put(conn)` — returns a
borrowed connection to the queue; blocks (state unchanged) if the queue is
full. -/
def return_connection (p : DatabasePool) : DatabasePool :=
  if p.available < p.pool_size then
    { p with available := p.available + 1, borrowed := p.borrowed - 1 }
  else
    p

/-- `DatabasePool.close_all`: `while not self.connections.empty(): get; close` —
drains and closes every queued connection.  No closed flag is set. -/
def close_all (p : DatabasePool) : DatabasePool :=
  { p with available := 0 }

/-- Events a pool client can perform during the pool's lifetime (before
`close_all`). -/
inductive PoolOp where
  | acquire
  | release
  deriving Repr, DecidableEq

/-- One client event against the pool state. -/
def poolStep (p : DatabasePool) : PoolOp → DatabasePool
  | .acquire => (get_connection p).2
  | .release => return_connection p

/-! ## Batched writer (core/database.py, `Database`)

The `headlines` table contents are threaded through the state as `stored`, so
durable effects of a flush are visible to the theorems.  Whether the backend
`executemany`/`commit` succeeds is an explicit `backendOk` argument. -/

/-- A row of the `headlines` table / an element of `pending_batch`:
`(source, headline, category, raw_label, confidence, datetime.now())`. -/
structure Record where
  source : String
  headline : String
  category : String
  raw_label : String
  confidence : ℚ
  scraped_at : Nat
  deriving Repr, DecidableEq

/-- The `Database` object plus the backend table it writes to. -/
structure Database where
  db_path : String
  pool : DatabasePool
  batch_size : Nat
  pending_batch : List Record
  stored : List Record
  deriving Repr, DecidableEq

/-- `ValueError` raised by `Database.__init__` on an invalid path. -/
inductive InitError where
  | valueError
  deriving Repr, DecidableEq

/-- `Database.__init__(db_path, pool_size=3)`: rejects an empty path, builds
the pool, and sets `self.batch_size = 50` — there is no batch-size parameter. -/
def Database.create (db_path : String) (pool_size : Nat) :
    Except InitError Database :=
  if db_path = "" then .error .valueError
  else .ok { db_path := db_path
             pool := DatabasePool.create pool_size
             batch_size := 50
             pending_batch := []
             stored := [] }

/-- Result of a call that may raise `sqlite3.Error`: the state afterwards and
whether the exception propagated to the caller. -/
structure FlushResult where
  db : Database
  raised : Bool
  deriving Repr, DecidableEq

/-- `Database._flush_batch`.  `appendedDuring` are records appended by
concurrent producers between the copy-and-clear of `pending_batch` and the
restore on failure (from `save` the whole call runs under `batch_lock`, so
there it is `[]`).  On success the copied batch is inserted and committed; on
failure the code runs `self.pending_batch.extend(batch_to_save)` — the failed
batch is appended after anything appended since — and re-raises.  The
connection is taken and returned in the same call, a net no-op on the pool. -/
def flush_batch (backendOk : Bool) (appendedDuring : List Record)
    (db : Database) : FlushResult :=
  if db.pending_batch.isEmpty then
    { db := { db with pending_batch := db.pending_batch ++ appendedDuring }
      raised := false }
  else
    let batch_to_save := db.pending_batch
    if backendOk then
      { db := { db with
                  pending_batch := appendedDuring
                  stored := db.stored ++ batch_to_save }
        raised := false }
    else
      { db := { db with pending_batch := appendedDuring ++ batch_to_save }
        raised := true }

/-- `ValueError` raised by `Database.save` on invalid arguments. -/
inductive SaveError where
  | valueError
  deriving Repr, DecidableEq

/-- `Database.save`: validates, appends the record to `pending_batch` under
`batch_lock`, and flushes if `len(self.pending_batch) >= self.batch_size`.
The flush happens inside the lock, so nothing is appended concurrently. -/
def save (backendOk : Bool) (source headline category raw_label : String)
    (confidence : ℚ) (now : Nat) (db : Database) : Except SaveError FlushResult :=
  if source = "" ∨ headline = "" ∨ category = "" then .error .valueError
  else if confidence < 0 ∨ 1 < confidence then .error .valueError
  else
    let db := { db with pending_batch := db.pending_batch ++
                  [⟨source, headline, category, raw_label, confidence, now⟩] }
    if db.batch_size ≤ db.pending_batch.length then
      .ok (flush_batch backendOk [] db)
    else
      .ok { db := db, raised := false }

/-- Result of `Database.close`: the state afterwards, whether
`pool.close_all()` was reached, and whether any error propagated to the
caller. -/
structure CloseResult where
  db : Database
  poolClosed : Bool
  surfaced : Bool
  deriving Repr, DecidableEq

/-- `Database.close`: one `try` block flushes a non-empty pending batch and
then calls `pool.close_all()`; the `except` clause prints the error and does
not re-raise.  A flush failure therefore skips `pool.close_all()` and
surfaces nothing. -/
def close (backendOk : Bool) (db : Database) : CloseResult :=
  if db.pending_batch.isEmpty then
    { db := { db with pool := close_all db.pool }
      poolClosed := true
      surfaced := false }
  else
    let r := flush_batch backendOk [] db
    if r.raised then
      { db := r.db, poolClosed := false, surfaced := false }
    else
      { db := { r.db with pool := close_all r.db.pool }
        poolClosed := true
        surfaced := false }

/-! ## Scraper engine (core/scraper_engine.py) -/

/-- Python `str.strip()`: remove leading and trailing whitespace, modelled on
the character list. -/
def strip (l : List Char) : List Char :=
  (((l.dropWhile Char.isWhitespace).reverse).dropWhile Char.isWhitespace).reverse

/-- `ScraperEngine.extract_headlines` after the DOM queries collected the raw
text contents: `[h.strip() for h in headlines if h.strip()][:10]` — strip,
drop the empties, keep at most the first ten. -/
def extract_headlines (raw : List (List Char)) : List (List Char) :=
  ((raw.map strip).filter (fun h => !h.isEmpty)).take 10

/-- Python `max(scores)` over a list of floats: `none` on the empty list
(`ValueError`). -/
def pyMaxQ : List ℚ → Option ℚ
  | [] => none
  | x :: xs => some (xs.foldl (fun b y => if b < y then y else b) x)

/-- `ScraperEngine.classify_headlines`: for each headline the classifier
collaborator `cls` yields `(category, scores)`; the item is kept iff
`max(scores) >= confidence_threshold`.  An empty score list raises
(`ValueError` from `max`), modelled as `none` for the whole call. -/
def classify_headlines {α : Type} (cls : α → String × List ℚ) (thr : ℚ) :
    List α → Option (List (α × String × List ℚ))
  | [] => some []
  | h :: rest =>
    let c := cls h
    match pyMaxQ c.2 with
    | none => none
    | some best =>
      match classify_headlines cls thr rest with
      | none => none
      | some rs =>
        some (if thr ≤ best then (h, c.1, c.2) :: rs else rs)

/-- A source descriptor `{name, url, selector}` from the configuration. -/
structure Site where
  name : String
  url : String
  selector : Option String
  deriving Repr, DecidableEq

/-- `ScraperEngine.scrape_all_sites` loop body: each site is processed in a
`try` block; `process_site` failures are printed and the loop continues with
the next site.  `process` abstracts `process_site` (extraction,
classification, persistence for one site); its outcome is recorded per site. -/
def scrape_all_sites {R : Type} (process : Site → Except String R) :
    List Site → List (Site × Option R)
  | [] => []
  | s :: rest =>
    match process s with
    | .ok r => (s, some r) :: scrape_all_sites process rest
    | .error _ => (s, none) :: scrape_all_sites process rest

/-! ## Helper lemmas -/

/-- The head of a `dropWhile p` result never satisfies `p`. -/
theorem dropWhile_head_not (p : Char → Bool) :
    ∀ (l : List Char) (c : Char), (l.dropWhile p).head? = some c → p c = false := by
  intro l
  induction l with
  | nil => intro c h; simp [List.dropWhile] at h
  | cons a t ih =>
    intro c h
    rw [List.dropWhile_cons] at h
    by_cases hpa : p a
    · rw [if_pos hpa] at h; exact ih c h
    · rw [if_neg hpa] at h
      simp only [List.head?_cons, Option.some.injEq] at h
      subst h
      exact Bool.eq_false_iff.mpr hpa

/-- A list whose head does not satisfy `p` is unchanged by `dropWhile p`. -/
theorem dropWhile_eq_self_of_head (p : Char → Bool) (l : List Char)
    (h : ∀ c, l.head? = some c → p c = false) : l.dropWhile p = l := by
  cases l with
  | nil => rfl
  | cons a t =>
    have ha : p a = false := h a (by simp)
    rw [List.dropWhile_cons, ha]
    simp

/-- `dropWhile` is idempotent. -/
theorem dropWhile_dropWhile (p : Char → Bool) (l : List Char) :
    (l.dropWhile p).dropWhile p = l.dropWhile p :=
  dropWhile_eq_self_of_head p _ (dropWhile_head_not p l)

/-- A stripped string has no leading whitespace. -/
theorem strip_head_not (l : List Char) (c : Char)
    (h : (strip l).head? = some c) : Char.isWhitespace c = false := by
  have hsl : strip l
      = (((l.dropWhile Char.isWhitespace).reverse).dropWhile Char.isWhitespace).reverse := rfl
  rw [hsl, List.head?_reverse] at h
  have hBne :
      ((l.dropWhile Char.isWhitespace).reverse).dropWhile Char.isWhitespace ≠ [] := by
    intro e; rw [e] at h; simp at h
  obtain ⟨t, ht⟩ :=
    List.dropWhile_suffix (l := (l.dropWhile Char.isWhitespace).reverse) Char.isWhitespace
  have hlast :
      (t ++ ((l.dropWhile Char.isWhitespace).reverse).dropWhile Char.isWhitespace).getLast?
      = (((l.dropWhile Char.isWhitespace).reverse).dropWhile Char.isWhitespace).getLast? :=
    List.getLast?_append_of_ne_nil t hBne
  rw [ht, List.getLast?_reverse] at hlast
  exact dropWhile_head_not Char.isWhitespace l c (by rw [hlast, h])

/-- `strip` is idempotent. -/
theorem strip_idem (l : List Char) : strip (strip l) = strip l := by
  show ((((strip l).dropWhile Char.isWhitespace).reverse).dropWhile
          Char.isWhitespace).reverse = strip l
  rw [dropWhile_eq_self_of_head _ _ (strip_head_not l)]
  have h2 : (strip l).reverse
      = ((l.dropWhile Char.isWhitespace).reverse).dropWhile Char.isWhitespace := by
    show ((((l.dropWhile Char.isWhitespace).reverse).dropWhile
            Char.isWhitespace).reverse).reverse = _
    rw [List.reverse_reverse]
  rw [h2, dropWhile_dropWhile]
  rfl

/-- `pickBest` never decreases the running best score. -/
theorem pickBest_score_le (b x : Entry) : b.score ≤ (pickBest b x).score := by
  unfold pickBest
  split
  · exact le_of_lt (by assumption)
  · exact le_rfl

/-- The seed's score is a lower bound for the fold over `pickBest`. -/
theorem foldl_pickBest_seed_le (es : List Entry) :
    ∀ e : Entry, e.score ≤ (es.foldl pickBest e).score := by
  induction es with
  | nil => intro e; exact le_rfl
  | cons x es ih =>
    intro e
    exact le_trans (pickBest_score_le e x) (ih (pickBest e x))

/-- The fold over `pickBest` returns the first entry of maximal score:
everything before it is strictly smaller, everything after it no larger. -/
theorem foldl_pickBest_first_max (es : List Entry) :
    ∀ e : Entry, ∃ l₁ l₂,
      e :: es = l₁ ++ (es.foldl pickBest e) :: l₂ ∧
      (∀ x ∈ l₁, x.score < (es.foldl pickBest e).score) ∧
      (∀ x ∈ l₂, x.score ≤ (es.foldl pickBest e).score) := by
  induction es with
  | nil =>
    intro e
    exact ⟨[], [], rfl, by simp, by simp⟩
  | cons x es ih =>
    intro e
    have hfold : (x :: es).foldl pickBest e = es.foldl pickBest (pickBest e x) := rfl
    by_cases hlt : e.score < x.score
    · have hpb : pickBest e x = x := by unfold pickBest; rw [if_pos hlt]
      obtain ⟨l₁, l₂, hdec, hl₁, hl₂⟩ := ih x
      rw [hfold, hpb]
      refine ⟨e :: l₁, l₂, ?_, ?_, hl₂⟩
      · rw [List.cons_append, ← hdec]
      · intro y hy
        rcases List.mem_cons.mp hy with h | h
        · subst h
          exact lt_of_lt_of_le hlt (foldl_pickBest_seed_le es x)
        · exact hl₁ y h
    · have hpb : pickBest e x = e := by unfold pickBest; rw [if_neg hlt]
      obtain ⟨l₁, l₂, hdec, hl₁, hl₂⟩ := ih e
      rw [hfold, hpb]
      cases l₁ with
      | nil =>
        simp only [List.nil_append] at hdec
        have hme : es.foldl pickBest e = e := ((List.cons.inj hdec).1).symm
        have hes : es = l₂ := (List.cons.inj hdec).2
        refine ⟨[], x :: l₂, ?_, by simp, ?_⟩
        · simp only [List.nil_append]
          rw [hme, ← hes]
        · intro y hy
          rcases List.mem_cons.mp hy with h | h
          · subst h
            rw [hme]
            exact le_of_not_lt hlt
          · exact hl₂ y h
      | cons b l₁t =>
        have hb : b = e := ((List.cons.inj hdec).1).symm
        have hes : es = l₁t ++ (es.foldl pickBest e) :: l₂ := (List.cons.inj hdec).2
        refine ⟨e :: x :: l₁t, l₂, ?_, ?_, hl₂⟩
        · rw [List.cons_append, List.cons_append, ← hes]
        · intro y hy
          have hbmem : e.score < (es.foldl pickBest e).score := by
            have := hl₁ b (List.mem_cons_self b l₁t)
            rw [hb] at this
            exact this
          rcases List.mem_cons.mp hy with h | h
          · subst h; exact hbmem
          · rcases List.mem_cons.mp h with h2 | h2
            · subst h2
              exact lt_of_le_of_lt (le_of_not_lt hlt) hbmem
            · exact hl₁ y (List.mem_cons_of_mem b h2)

/-- `classify_headlines` never returns more items than it was given. -/
theorem classify_headlines_length_le {α : Type} (cls : α → String × List ℚ)
    (thr : ℚ) :
    ∀ (l : List α) (rs : List (α × String × List ℚ)),
      classify_headlines cls thr l = some rs → rs.length ≤ l.length := by
  intro l
  induction l with
  | nil =>
    intro rs h
    simp only [classify_headlines, Option.some.injEq] at h
    subst h
    simp
  | cons x l ih =>
    intro rs h
    simp only [classify_headlines] at h
    cases hm : pyMaxQ (cls x).2 with
    | none => rw [hm] at h; simp at h
    | some best =>
      rw [hm] at h
      cases hr : classify_headlines cls thr l with
      | none => rw [hr] at h; simp at h
      | some rs' =>
        rw [hr] at h
        simp only [Option.some.injEq] at h
        subst h
        have hlen := ih rs' hr
        by_cases ht : thr ≤ best
        · rw [if_pos ht]; simpa using Nat.succ_le_succ hlen
        · rw [if_neg ht]; simp; omega

/-- One pool event preserves the conservation invariant. -/
theorem poolStep_preserves (n : Nat) (p : DatabasePool) (op : PoolOp)
    (h : p.pool_size = n ∧ p.available + p.borrowed = n) :
    (poolStep p op).pool_size = n ∧
    (poolStep p op).available + (poolStep p op).borrowed = n := by
  obtain ⟨hs, hb⟩ := h
  cases op with
  | acquire =>
    simp only [poolStep, get_connection]
    by_cases ha : 0 < p.available
    · rw [if_pos ha]
      exact ⟨hs, by simp; omega⟩
    · rw [if_neg ha]
      exact ⟨hs, hb⟩
  | release =>
    simp only [poolStep, return_connection]
    by_cases ha : p.available < p.pool_size
    · rw [if_pos ha]
      refine ⟨hs, ?_⟩
      simp
      omega
    · rw [if_neg ha]
      exact ⟨hs, hb⟩

/-- The conservation invariant holds along any trace of pool events. -/
theorem foldl_poolStep_inv (n : Nat) (ops : List PoolOp) :
    ∀ p : DatabasePool, p.pool_size = n ∧ p.available + p.borrowed = n →
      (ops.foldl poolStep p).pool_size = n ∧
      (ops.foldl poolStep p).available + (ops.foldl poolStep p).borrowed = n := by
  induction ops with
  | nil => intro p h; exact h
  | cons op ops ih =>
    intro p h
    exact ih _ (poolStep_preserves n p op h)

/-! ## Claim theorems -/

/-- C1 counterexample: with record `s1` pending and record `s2` appended
concurrently during the failing flush, the buffer afterwards is
`[s2, s1]` — `self.pending_batch.extend(batch_to_save)` appends the failed
batch after the concurrent appends, it does not prepend it before them. -/
theorem C1_counterexample :
    (flush_batch false [⟨"s2", "h2", "c2", "r2", 1, 1⟩]
        ⟨"news.db", DatabasePool.create 3, 50,
          [⟨"s1", "h1", "c1", "r1", 1, 0⟩], []⟩).db.pending_batch
      ≠ [⟨"s1", "h1", "c1", "r1", 1, 0⟩] ++ [⟨"s2", "h2", "c2", "r2", 1, 1⟩] := by
  decide

/-- C1 (amended): when the backend bulk insert fails during a flush of a
non-empty batch, the error is re-raised, nothing is written, and the failed
batch is restored by appending it after anything appended since (Python
`list.extend`); as a multiset the buffer equals the pre-flush records plus the
concurrent appends — no record lost or duplicated — and when nothing was
appended concurrently the buffer is exactly the pre-flush sequence. -/
theorem C1_flush_failure_restores (db : Database) (appended : List Record)
    (h : db.pending_batch ≠ []) :
    (flush_batch false appended db).raised = true ∧
    (flush_batch false appended db).db.stored = db.stored ∧
    (flush_batch false appended db).db.pending_batch
      = appended ++ db.pending_batch ∧
    Multiset.ofList ((flush_batch false appended db).db.pending_batch)
      = Multiset.ofList db.pending_batch + Multiset.ofList appended ∧
    (appended = [] →
      (flush_batch false appended db).db.pending_batch = db.pending_batch) := by
  have hne : db.pending_batch.isEmpty = false := by
    cases hp : db.pending_batch with
    | nil => exact absurd hp h
    | cons a t => rfl
  have hfb : flush_batch false appended db
      = ⟨{ db with pending_batch := appended ++ db.pending_batch }, true⟩ := by
    unfold flush_batch
    simp [hne]
  refine ⟨by rw [hfb], by rw [hfb], by rw [hfb], ?_, ?_⟩
  · rw [hfb]
    show ((appended ++ db.pending_batch : List Record) : Multiset Record) = _
    rw [← Multiset.coe_add, add_comm]
  · intro ha
    subst ha
    rw [hfb]
    exact List.nil_append _

/-- C1 witness: the amended restoration property evaluated with one record
pending and one appended concurrently during the failing flush. -/
theorem C1_flush_failure_restores_witness :
    (⟨"news.db", DatabasePool.create 3, 50, [⟨"s1", "h1", "c1", "r1", 1, 0⟩],
        []⟩ : Database).pending_batch ≠ [] ∧
    ((flush_batch false [⟨"s2", "h2", "c2", "r2", 1, 1⟩]
        ⟨"news.db", DatabasePool.create 3, 50, [⟨"s1", "h1", "c1", "r1", 1, 0⟩],
          []⟩).raised = true ∧
     (flush_batch false [⟨"s2", "h2", "c2", "r2", 1, 1⟩]
        ⟨"news.db", DatabasePool.create 3, 50, [⟨"s1", "h1", "c1", "r1", 1, 0⟩],
          []⟩).db.stored
       = (⟨"news.db", DatabasePool.create 3, 50, [⟨"s1", "h1", "c1", "r1", 1, 0⟩],
          []⟩ : Database).stored ∧
     (flush_batch false [⟨"s2", "h2", "c2", "r2", 1, 1⟩]
        ⟨"news.db", DatabasePool.create 3, 50, [⟨"s1", "h1", "c1", "r1", 1, 0⟩],
          []⟩).db.pending_batch
       = [⟨"s2", "h2", "c2", "r2", 1, 1⟩]
         ++ (⟨"news.db", DatabasePool.create 3, 50,
              [⟨"s1", "h1", "c1", "r1", 1, 0⟩], []⟩ : Database).pending_batch ∧
     Multiset.ofList ((flush_batch false [⟨"s2", "h2", "c2", "r2", 1, 1⟩]
        ⟨"news.db", DatabasePool.create 3, 50, [⟨"s1", "h1", "c1", "r1", 1, 0⟩],
          []⟩).db.pending_batch)
       = Multiset.ofList (⟨"news.db", DatabasePool.create 3, 50,
            [⟨"s1", "h1", "c1", "r1", 1, 0⟩], []⟩ : Database).pending_batch
         + Multiset.ofList [⟨"s2", "h2", "c2", "r2", 1, 1⟩] ∧
     (([⟨"s2", "h2", "c2", "r2", 1, 1⟩] : List Record) = [] →
       (flush_batch false [⟨"s2", "h2", "c2", "r2", 1, 1⟩]
          ⟨"news.db", DatabasePool.create 3, 50,
            [⟨"s1", "h1", "c1", "r1", 1, 0⟩], []⟩).db.pending_batch
         = (⟨"news.db", DatabasePool.create 3, 50,
              [⟨"s1", "h1", "c1", "r1", 1, 0⟩], []⟩ : Database).pending_batch)) :=
  ⟨List.cons_ne_nil _ _,
   C1_flush_failure_restores
     ⟨"news.db", DatabasePool.create 3, 50, [⟨"s1", "h1", "c1", "r1", 1, 0⟩], []⟩
     [⟨"s2", "h2", "c2", "r2", 1, 1⟩] (List.cons_ne_nil _ _)⟩

/-- C2: for every label map, text, and well-formed classification result, if
the selected best score is below the 0.5 threshold and the lower-cased text
contains a tragedy keyword as a substring, the resolved category is the
override category "World News", regardless of what the label map produces. -/
theorem C2_low_confidence_tragedy_override
    (mapping : List (String × String)) (text : String) (result : List Entry)
    (best : Entry) (hbest : pyMax result = some best)
    (hconf : best.score < 1/2)
    (hkw : tragedy_keywords.any (fun w => strContains (lowerStr text) w) = true) :
    classify_with mapping text result
      = .ok ("World News", best.label, best.score) := by
  unfold classify_with
  rw [hbest]
  simp only [hkw, Bool.and_true, decide_eq_true_eq]
  rw [if_pos hconf]

/-- C2 witness: the spec's own scenario — label "other", confidence 0.3,
text "Three killed in incident". -/
theorem C2_low_confidence_tragedy_override_witness :
    pyMax [Entry.mk "other" (3/10)] = some (Entry.mk "other" (3/10)) ∧
    (Entry.mk "other" (3/10)).score < 1/2 ∧
    tragedy_keywords.any
      (fun w => strContains (lowerStr "Three killed in incident") w) = true ∧
    classify_with label_mapping "Three killed in incident"
        [Entry.mk "other" (3/10)]
      = .ok ("World News", "other", 3/10) :=
  ⟨rfl, by show (3 : ℚ)/10 < 1/2; norm_num, by decide,
    C2_low_confidence_tragedy_override label_mapping "Three killed in incident"
      [Entry.mk "other" (3/10)] (Entry.mk "other" (3/10))
      rfl (by show (3 : ℚ)/10 < 1/2; norm_num) (by decide)⟩

/-- C3: evaluating `Database.close` at the failing input — a non-empty pending
batch whose backend insert fails — shows the exception is swallowed
(`surfaced = false`) and `pool.close_all()` is skipped (`poolClosed = false`,
all three connections still unreleased in the pool), contradicting the claim
that the error is surfaced and pool shutdown still proceeds. -/
theorem C3_close_failure_skips_pool_shutdown :
    (close false ⟨"news.db", DatabasePool.create 3, 50,
        [⟨"s", "h", "c", "r", 1, 0⟩], []⟩).surfaced = false ∧
    (close false ⟨"news.db", DatabasePool.create 3, 50,
        [⟨"s", "h", "c", "r", 1, 0⟩], []⟩).poolClosed = false ∧
    (close false ⟨"news.db", DatabasePool.create 3, 50,
        [⟨"s", "h", "c", "r", 1, 0⟩], []⟩).db.pool.available = 3 := by
  decide

/-- C4 counterexample: on a freshly created pool of three connections,
`close_all` followed by `get_connection` blocks on the empty queue — it does
not fail with a `PoolClosedError` (the source defines no such exception and
sets no closed flag). -/
theorem C4_counterexample :
    (get_connection (close_all (DatabasePool.create 3))).1 = .blocks ∧
    (get_connection (close_all (DatabasePool.create 3))).1
      ≠ .poolClosedError := by
  decide

/-- C4 (amended): after `close_all` the queue is drained, and every subsequent
`get_connection` (with no intervening `return_connection`) blocks indefinitely
on the empty queue, leaving the pool state unchanged; it neither returns a
connection nor raises any error. -/
theorem C4_acquire_after_close_blocks (p : DatabasePool) :
    get_connection (close_all p) = (.blocks, close_all p) := by
  simp [get_connection, close_all]

/-- C5 counterexample: `Database.__init__` takes only a path and a pool size;
for any configuration it sets `batch_size` to the hardcoded constant 50 —
the batch-size threshold is not part of the configuration surface. -/
theorem C5_counterexample :
    (Database.create "news.db" 3).map (fun d => d.batch_size) = .ok 50 ∧
    (Database.create "alt.db" 9).map (fun d => d.batch_size) = .ok 50 :=
  ⟨rfl, rfl⟩

/-- C5 (amended): `batch_size` is a hardcoded attribute (50) rather than
constructor configuration, but it is consulted on every append: for a writer
whose `batch_size` field has been set to 2 with an empty buffer, three valid
`save` calls auto-flush exactly after the second append (leaving one record
pending), and a subsequent `close` flushes the remainder, for a final stored
row count of three. -/
theorem C5_batch_two_scenario (db : Database)
    (hbs : db.batch_size = 2) (hpend : db.pending_batch = [])
    (s1 h1 c1 rl1 : String) (q1 : ℚ) (t1 : Nat)
    (s2 h2 c2 rl2 : String) (q2 : ℚ) (t2 : Nat)
    (s3 h3 c3 rl3 : String) (q3 : ℚ) (t3 : Nat)
    (hv1 : s1 ≠ "" ∧ h1 ≠ "" ∧ c1 ≠ "" ∧ 0 ≤ q1 ∧ q1 ≤ 1)
    (hv2 : s2 ≠ "" ∧ h2 ≠ "" ∧ c2 ≠ "" ∧ 0 ≤ q2 ∧ q2 ≤ 1)
    (hv3 : s3 ≠ "" ∧ h3 ≠ "" ∧ c3 ≠ "" ∧ 0 ≤ q3 ∧ q3 ≤ 1) :
    ∃ d1 d2 d3 : Database,
      save true s1 h1 c1 rl1 q1 t1 db = .ok ⟨d1, false⟩ ∧
      d1.pending_batch.length = 1 ∧ d1.stored = db.stored ∧
      save true s2 h2 c2 rl2 q2 t2 d1 = .ok ⟨d2, false⟩ ∧
      d2.pending_batch = [] ∧ d2.stored.length = db.stored.length + 2 ∧
      save true s3 h3 c3 rl3 q3 t3 d2 = .ok ⟨d3, false⟩ ∧
      d3.pending_batch.length = 1 ∧ d3.stored = d2.stored ∧
      (close true d3).poolClosed = true ∧
      (close true d3).db.pending_batch = [] ∧
      (close true d3).db.stored.length = db.stored.length + 3 := by
  obtain ⟨hs1, hh1, hc1, hq1a, hq1b⟩ := hv1
  obtain ⟨hs2, hh2, hc2, hq2a, hq2b⟩ := hv2
  obtain ⟨hs3, hh3, hc3, hq3a, hq3b⟩ := hv3
  have hval1 : ¬(s1 = "" ∨ h1 = "" ∨ c1 = "") := by
    rintro (h | h | h)
    exacts [hs1 h, hh1 h, hc1 h]
  have hrng1 : ¬(q1 < 0 ∨ 1 < q1) := by
    rintro (h | h)
    exacts [absurd h (not_lt.mpr hq1a), absurd h (not_lt.mpr hq1b)]
  have hval2 : ¬(s2 = "" ∨ h2 = "" ∨ c2 = "") := by
    rintro (h | h | h)
    exacts [hs2 h, hh2 h, hc2 h]
  have hrng2 : ¬(q2 < 0 ∨ 1 < q2) := by
    rintro (h | h)
    exacts [absurd h (not_lt.mpr hq2a), absurd h (not_lt.mpr hq2b)]
  have hval3 : ¬(s3 = "" ∨ h3 = "" ∨ c3 = "") := by
    rintro (h | h | h)
    exacts [hs3 h, hh3 h, hc3 h]
  have hrng3 : ¬(q3 < 0 ∨ 1 < q3) := by
    rintro (h | h)
    exacts [absurd h (not_lt.mpr hq3a), absurd h (not_lt.mpr hq3b)]
  refine ⟨{ db with pending_batch := [⟨s1, h1, c1, rl1, q1, t1⟩] },
          { db with pending_batch := []
                    stored := db.stored
                      ++ [⟨s1, h1, c1, rl1, q1, t1⟩, ⟨s2, h2, c2, rl2, q2, t2⟩] },
          { db with pending_batch := [⟨s3, h3, c3, rl3, q3, t3⟩]
                    stored := db.stored
                      ++ [⟨s1, h1, c1, rl1, q1, t1⟩, ⟨s2, h2, c2, rl2, q2, t2⟩] },
          ?_, by simp, by simp, ?_, by simp, by simp, ?_, by simp, by simp,
          ?_, ?_, ?_⟩
  · unfold save
    rw [if_neg hval1, if_neg hrng1]
    simp only [hpend, hbs, List.nil_append, List.length_cons, List.length_nil]
    rw [if_neg (by omega)]
  · unfold save
    rw [if_neg hval2, if_neg hrng2]
    simp only [hbs, List.length_append, List.length_cons, List.length_nil]
    rw [if_pos (by simp)]
    unfold flush_batch
    simp [hbs]
  · unfold save
    rw [if_neg hval3, if_neg hrng3]
    simp only [hbs, List.length_append, List.length_cons, List.length_nil]
    rw [if_neg (by simp)]
    simp
  · unfold close
    rw [if_neg (by simp)]
    unfold flush_batch
    simp
  · unfold close
    rw [if_neg (by simp)]
    unfold flush_batch
    simp
  · unfold close
    rw [if_neg (by simp)]
    unfold flush_batch
    simp

/-- C5 witness: the amended scenario evaluated on a concrete writer with
`batch_size` set to 2 and three concrete records of confidence 0.9. -/
theorem C5_batch_two_scenario_witness :
    (⟨"news.db", DatabasePool.create 3, 2, [], []⟩ : Database).batch_size = 2 ∧
    (⟨"news.db", DatabasePool.create 3, 2, [], []⟩ : Database).pending_batch = [] ∧
    ("a" ≠ "" ∧ "ha" ≠ "" ∧ "ca" ≠ "" ∧ (0 : ℚ) ≤ 9/10 ∧ (9 : ℚ)/10 ≤ 1) ∧
    (∃ d1 d2 d3 : Database,
      save true "a" "ha" "ca" "ra" (9/10) 0
          ⟨"news.db", DatabasePool.create 3, 2, [], []⟩ = .ok ⟨d1, false⟩ ∧
      d1.pending_batch.length = 1 ∧
      d1.stored = (⟨"news.db", DatabasePool.create 3, 2, [], []⟩ : Database).stored ∧
      save true "b" "hb" "cb" "rb" (9/10) 1 d1 = .ok ⟨d2, false⟩ ∧
      d2.pending_batch = [] ∧
      d2.stored.length
        = (⟨"news.db", DatabasePool.create 3, 2, [], []⟩ : Database).stored.length + 2 ∧
      save true "c" "hc" "cc" "rc" (9/10) 2 d2 = .ok ⟨d3, false⟩ ∧
      d3.pending_batch.length = 1 ∧ d3.stored = d2.stored ∧
      (close true d3).poolClosed = true ∧
      (close true d3).db.pending_batch = [] ∧
      (close true d3).db.stored.length
        = (⟨"news.db", DatabasePool.create 3, 2, [], []⟩ : Database).stored.length + 3) :=
  ⟨rfl, rfl, ⟨by decide, by decide, by decide, by norm_num, by norm_num⟩,
    C5_batch_two_scenario ⟨"news.db", DatabasePool.create 3, 2, [], []⟩ rfl rfl
      "a" "ha" "ca" "ra" (9/10) 0 "b" "hb" "cb" "rb" (9/10) 1
      "c" "hc" "cc" "rc" (9/10) 2
      ⟨by decide, by decide, by decide, by norm_num, by norm_num⟩
      ⟨by decide, by decide, by decide, by norm_num, by norm_num⟩
      ⟨by decide, by decide, by decide, by norm_num, by norm_num⟩⟩

/-- C6: for every well-formed (non-empty) classification result, `pyMax`
selects an entry of maximal score, and on ties the entry occurring earliest
wins: the list splits as `l₁ ++ best :: l₂` with everything before `best`
strictly smaller and everything after no larger; `classify_with` returns that
entry's label and score. -/
theorem C6_stable_max_selection (l : List Entry) (h : l ≠ []) :
    ∃ best l₁ l₂, pyMax l = some best ∧ l = l₁ ++ best :: l₂ ∧
      (∀ x ∈ l₁, x.score < best.score) ∧
      (∀ x ∈ l₂, x.score ≤ best.score) ∧
      ∀ (mapping : List (String × String)) (text : String),
        ∃ cat, classify_with mapping text l = .ok (cat, best.label, best.score) := by
  cases l with
  | nil => exact absurd rfl h
  | cons e es =>
    obtain ⟨l₁, l₂, hdec, h1, h2⟩ := foldl_pickBest_first_max es e
    refine ⟨es.foldl pickBest e, l₁, l₂, rfl, hdec, h1, h2, ?_⟩
    intro mapping text
    exact ⟨_, rfl⟩

/-- C6 witness: a two-way tie at score 1 — the earlier entry "a" is selected. -/
theorem C6_stable_max_selection_witness :
    ([Entry.mk "a" 1, Entry.mk "b" 1] : List Entry) ≠ [] ∧
    (∃ best l₁ l₂, pyMax [Entry.mk "a" 1, Entry.mk "b" 1] = some best ∧
      [Entry.mk "a" 1, Entry.mk "b" 1] = l₁ ++ best :: l₂ ∧
      (∀ x ∈ l₁, x.score < best.score) ∧
      (∀ x ∈ l₂, x.score ≤ best.score) ∧
      ∀ (mapping : List (String × String)) (text : String),
        ∃ cat, classify_with mapping text [Entry.mk "a" 1, Entry.mk "b" 1]
          = .ok (cat, best.label, best.score)) :=
  ⟨List.cons_ne_nil _ _,
   C6_stable_max_selection [Entry.mk "a" 1, Entry.mk "b" 1] (List.cons_ne_nil _ _)⟩

/-- C7: the resolver never fails on a well-formed (non-empty) result and
fails with the `InvalidInputError` equivalent exactly on the malformed case
expressible in the source's paired representation — the empty result
(label/score length mismatch cannot arise, labels and scores being fields of
one entry). -/
theorem C7_resolve_total (mapping : List (String × String)) (text : String)
    (result : List Entry) :
    (result = [] → classify_with mapping text result = .error .invalidInput) ∧
    (result ≠ [] → ∃ v, classify_with mapping text result = .ok v) := by
  constructor
  · intro h
    subst h
    rfl
  · intro h
    cases result with
    | nil => exact absurd rfl h
    | cons e es => exact ⟨_, rfl⟩

/-- C7 witness: the empty result errors; a singleton result succeeds. -/
theorem C7_resolve_total_witness :
    classify_with label_mapping "x" [] = .error .invalidInput ∧
    (Entry.mk "sports" 1 :: []) ≠ ([] : List Entry) ∧
    (∃ v, classify_with label_mapping "x" [Entry.mk "sports" 1] = .ok v) :=
  ⟨(C7_resolve_total label_mapping "x" []).1 rfl,
   List.cons_ne_nil _ _,
   (C7_resolve_total label_mapping "x" [Entry.mk "sports" 1]).2
     (List.cons_ne_nil _ _)⟩

/-- C8: the pool eagerly creates exactly `pool_size` connections at
construction, and along any trace of acquire/release events the connections
in existence stay exactly `pool_size` (available plus borrowed — no growth or
shrink), so the concurrently borrowed count never exceeds `pool_size`. -/
theorem C8_pool_conservation (n : Nat) (ops : List PoolOp) :
    (DatabasePool.create n).available = n ∧
    (DatabasePool.create n).borrowed = 0 ∧
    (ops.foldl poolStep (DatabasePool.create n)).available
      + (ops.foldl poolStep (DatabasePool.create n)).borrowed = n ∧
    (ops.foldl poolStep (DatabasePool.create n)).borrowed ≤ n := by
  have hinv := foldl_poolStep_inv n ops (DatabasePool.create n) ⟨rfl, rfl⟩
  exact ⟨rfl, rfl, hinv.2, by omega⟩

/-- C9: the coordinator's per-source loop is a partial-failure boundary —
whatever `process_site` does, every source in the list is processed (the
output lists them all, in order), and a failing source only yields a logged
`none` for itself while the remaining sources are processed unchanged. -/
theorem C9_per_source_isolation {R : Type} (process : Site → Except String R)
    (sites : List Site) :
    ((scrape_all_sites process sites).map Prod.fst = sites) ∧
    (∀ (s : Site) (rest : List Site) (e : String), process s = .error e →
      scrape_all_sites process (s :: rest)
        = (s, none) :: scrape_all_sites process rest) := by
  constructor
  · induction sites with
    | nil => rfl
    | cons s rest ih =>
      cases hp : process s with
      | ok r => simp [scrape_all_sites, hp, ih]
      | error e => simp [scrape_all_sites, hp, ih]
  · intro s rest e he
    simp [scrape_all_sites, he]

/-- C9 witness: a processor that fails on every site still yields one entry
per site, and the failing head does not disturb the tail. -/
theorem C9_per_source_isolation_witness :
    (fun _ : Site => (Except.error "boom" : Except String Unit)) ⟨"a", "u", none⟩
      = Except.error "boom" ∧
    (scrape_all_sites (fun _ : Site => (Except.error "boom" : Except String Unit))
        [⟨"a", "u", none⟩, ⟨"b", "v", none⟩]).map Prod.fst
      = [⟨"a", "u", none⟩, ⟨"b", "v", none⟩] ∧
    scrape_all_sites (fun _ : Site => (Except.error "boom" : Except String Unit))
        (⟨"a", "u", none⟩ :: [⟨"b", "v", none⟩])
      = (⟨"a", "u", none⟩, none)
        :: scrape_all_sites
            (fun _ : Site => (Except.error "boom" : Except String Unit))
            [⟨"b", "v", none⟩] :=
  ⟨rfl,
   (C9_per_source_isolation (fun _ => Except.error "boom")
      [⟨"a", "u", none⟩, ⟨"b", "v", none⟩]).1,
   (C9_per_source_isolation (fun _ => Except.error "boom")
      [⟨"b", "v", none⟩]).2 ⟨"a", "u", none⟩ [⟨"b", "v", none⟩] "boom" rfl⟩

/-- C10: extraction returns at most ten headlines, each non-empty and already
stripped (hence still non-empty after stripping), and consequently a single
scrape classifies — and therefore persists — at most ten records for one
source. -/
theorem C10_extraction_bounded (raw : List (List Char)) :
    (extract_headlines raw).length ≤ 10 ∧
    (∀ h ∈ extract_headlines raw, h ≠ [] ∧ strip h = h) ∧
    (∀ (cls : List Char → String × List ℚ) (thr : ℚ)
        (rs : List (List Char × String × List ℚ)),
      classify_headlines cls thr (extract_headlines raw) = some rs →
      rs.length ≤ 10) := by
  have hlen : (extract_headlines raw).length ≤ 10 := by
    unfold extract_headlines
    simp [List.length_take]
  refine ⟨hlen, ?_, ?_⟩
  · intro h hmem
    unfold extract_headlines at hmem
    have hmem2 : h ∈ (raw.map strip).filter (fun h => !h.isEmpty) :=
      List.take_subset _ _ hmem
    obtain ⟨hmap, hp⟩ := List.mem_filter.mp hmem2
    obtain ⟨x, hx, hxs⟩ := List.mem_map.mp hmap
    constructor
    · intro hnil
      rw [hnil] at hp
      simp at hp
    · rw [← hxs]
      exact strip_idem x
  · intro cls thr rs hcl
    exact le_trans (classify_headlines_length_le cls thr _ rs hcl) hlen

/-- C10 witness: one raw headline with surrounding whitespace is stripped and
kept; classified at threshold 0 it yields one record, at most ten. -/
theorem C10_extraction_bounded_witness :
    (extract_headlines [" a ".toList]).length ≤ 10 ∧
    classify_headlines (fun _ => ("Sports", [(1 : ℚ)])) 0
        (extract_headlines [" a ".toList])
      = some [("a".toList, "Sports", [(1 : ℚ)])] ∧
    ([("a".toList, "Sports", [(1 : ℚ)])]).length ≤ 10 :=
  ⟨(C10_extraction_bounded [" a ".toList]).1,
   by decide,
   (C10_extraction_bounded [" a ".toList]).2.2
     (fun _ => ("Sports", [(1 : ℚ)])) 0 [("a".toList, "Sports", [(1 : ℚ)])]
     (by decide)⟩

end Pipeline
